import Mathlib

/-!
Shallow embedding of `src/upload.py` (AO3 chapter uploader).

Part 1: the segmenter `parse_chapters` (lines 34-74), which splits a parsed
HTML document into chapter records on h1/h2 headings via BeautifulSoup.

The document model covers the fragment of HTML the segmenter inspects:
attribute-free elements and text nodes.  Entity escaping in `str(...)`
serialization is not modelled (no claim input contains markup-significant
characters inside text).  BeautifulSoup behaviours that the embedding
mirrors:
  - `find_all(re.compile("^h[12]$", re.I))` walks all element descendants in
    document (pre-)order and keeps those whose name matches h1/h2
    case-insensitively; text nodes are never matched when a name filter is
    given.
  - `heading.find_next_siblings()` with no arguments returns only the Tag
    siblings that follow the heading inside its parent, skipping text nodes
    (bs4's "optimization to find all tags" in `_find_all`).
  - `get_text(strip=True)` concatenates the stripped descendant strings,
    dropping those that strip to empty, with no separator.
  - `soup.find("body") or soup`: a Tag is always truthy (`Tag.__bool__`
    returns True even for an empty tag), so the body is used whenever found.
-/

mutual

inductive Node where
  | text (s : String)
  | tag (name : String) (children : NodeList)
deriving Repr, DecidableEq

inductive NodeList where
  | nil
  | cons (n : Node) (rest : NodeList)
deriving Repr, DecidableEq

end

/-- Convert a plain list of nodes into a `NodeList` (used to write concrete
documents compactly). -/
def NodeList.ofList : List Node → NodeList
  | [] => .nil
  | n :: rest => .cons n (NodeList.ofList rest)

/-- Python's `str.strip()` whitespace test, restricted to the ASCII whitespace
characters (space, tab, newline, carriage return, vertical tab, form feed). -/
def pyWhitespace (c : Char) : Bool :=
  c == ' ' || c == '\t' || c == '\n' || c == '\r' || c == '\x0b' || c == '\x0c'

/-- Python's `s.strip()`: drop leading and trailing whitespace. -/
def pyStrip (s : String) : String :=
  String.mk (((s.data.dropWhile pyWhitespace).reverse.dropWhile pyWhitespace).reverse)

/-- Python's `sep.join(parts)`. -/
def joinSep (sep : String) : List String → String
  | [] => ""
  | [s] => s
  | s :: rest => s ++ sep ++ joinSep sep rest

/-- Does a tag name match the regex `^h[12]$` with `re.I`, i.e. is it an
h1 or h2 element (case-insensitively)?  Used both by the `find_all` call
(upload.py line 49) and by the sibling scan (line 65). -/
def isHeading (name : String) : Bool :=
  let l := String.mk (name.data.map Char.toLower)
  l == "h1" || l == "h2"

mutual

/-- Serialization `str(node)`: a text node prints its string, an element
prints an open tag, its serialized children, and a close tag. -/
def Node.render : Node → String
  | .text s => s
  | .tag name cs => "<" ++ name ++ ">" ++ NodeList.render cs ++ "</" ++ name ++ ">"

/-- Serialization of a sequence of sibling nodes, concatenated. -/
def NodeList.render : NodeList → String
  | .nil => ""
  | .cons n rest => Node.render n ++ NodeList.render rest

end

mutual

/-- All descendant text-node strings of a node, in document order
(BeautifulSoup's `_all_strings`). -/
def Node.strings : Node → List String
  | .text s => [s]
  | .tag _ cs => NodeList.strings cs

/-- All descendant text-node strings of a node sequence, in document order. -/
def NodeList.strings : NodeList → List String
  | .nil => []
  | .cons n rest => Node.strings n ++ NodeList.strings rest

end

/-- BeautifulSoup's `get_text(strip=True)`: strip each descendant string,
drop the ones that become empty, concatenate the rest. -/
def get_text_strip (n : Node) : String :=
  joinSep "" (((Node.strings n).map pyStrip).filter (fun s => !(s == "")))

mutual

/-- The h1/h2 elements inside one node (the node itself included), in
document order: the element-descendant walk of
`soup.find_all(re.compile("^h[12]$", re.I))` restricted to this subtree. -/
def Node.find_hs : Node → List Node
  | .text _ => []
  | .tag name cs =>
      (if isHeading name then [Node.tag name cs] else []) ++ NodeList.find_hs cs

/-- The h1/h2 elements inside a node sequence, in document order. -/
def NodeList.find_hs : NodeList → List Node
  | .nil => []
  | .cons n rest => Node.find_hs n ++ NodeList.find_hs rest

end

mutual

/-- The headings found inside one node, each paired with the siblings that
follow it in its parent (`rest` is what follows the node itself).  This fuses
the Python code's two steps — `find_all` (line 49) followed by
`heading.find_next_siblings()` per heading (line 64) — because our trees
carry no parent pointers; the enumeration order is the same pre-order.  The
lemmas `hws_map_fst_node` and `hws_map_fst_list` below checks the fusion against `find_hs`. -/
def Node.hws : Node → NodeList → List (Node × NodeList)
  | .text _, _ => []
  | .tag name cs, rest =>
      (if isHeading name then [(Node.tag name cs, rest)] else []) ++ NodeList.hws cs

/-- The headings found inside a node sequence, each paired with its following
siblings. -/
def NodeList.hws : NodeList → List (Node × NodeList)
  | .nil => []
  | .cons n rest => Node.hws n rest ++ NodeList.hws rest

end

mutual

/-- BeautifulSoup's `soup.find("body")`: the first element named `body` in
document (pre-)order within one node, if any. -/
def Node.find_body : Node → Option Node
  | .text _ => none
  | .tag name cs =>
      if name == "body" then some (Node.tag name cs) else NodeList.find_body cs

/-- The first element named `body` in document order within a node sequence. -/
def NodeList.find_body : NodeList → Option Node
  | .nil => none
  | .cons n rest =>
      match Node.find_body n with
      | some b => some b
      | none => NodeList.find_body rest

end

/-- Children used by the no-heading fallback (upload.py line 53):
`body = soup.find("body") or soup`, then `body.children`.  A found Tag is
always truthy in bs4, so the body's children are used whenever a body
exists; otherwise the whole document's top-level nodes. -/
def body_children (doc : NodeList) : NodeList :=
  match NodeList.find_body doc with
  | some (Node.tag _ cs) => cs
  | _ => doc

/-- View a `NodeList` as a plain list of nodes. -/
def NodeList.toList : NodeList → List Node
  | .nil => []
  | .cons n rest => n :: NodeList.toList rest

/-- One chapter record produced by the segmenter: a dict with keys
`title` and `content` (upload.py lines 54-57 and 69-72). -/
structure Chapter where
  title : String
  content : String
deriving Repr, DecidableEq

/-- The sibling scan of upload.py lines 63-67: walk the siblings following a
heading, stop at the first h1/h2 element, and keep `str(sibling)` of each tag
passed (text-node siblings are not yielded by `find_next_siblings()`). -/
def collect_content : NodeList → List String
  | .nil => []
  | .cons (.text _) rest => collect_content rest
  | .cons (.tag name cs) rest =>
      if isHeading name then []
      else Node.render (Node.tag name cs) :: collect_content rest

/-- The segmenter `parse_chapters` (upload.py lines 34-74), as a function of
the parsed document (the file reading and HTML parsing of lines 42-43 are
the markup parser's job; the document tree is the input here).  If no h1/h2
element exists the whole body is one chapter titled "Chapter 1"; otherwise
each heading yields a chapter whose title is its stripped text and whose
content is the newline-join of the serialized sibling tags up to the next
heading. -/
def parse_chapters (doc : NodeList) : List Chapter :=
  let headings := NodeList.hws doc
  if headings.isEmpty then
    [{ title := "Chapter 1"
       content := joinSep "" ((body_children doc).toList.map Node.render) }]
  else
    headings.map fun p =>
      { title := get_text_strip p.1
        content := joinSep "\n" (collect_content p.2) }

/-!
Part 2: the uploader (upload.py lines 107-232).

The browser is modelled by an environment of oracles for the three
interactions that can fail in the code:
  - `navOk i`: whether the `chapter_content` wait on the add-chapter page
    succeeds for the attempt on chapter `i` (upload.py line 161); a `false`
    is the `TimeoutException` that propagates out of
    `navigate_to_add_chapter` and aborts the run.
  - `canType s`: whether `element.send_keys(s)` succeeds (an exception here
    models characters the driver cannot type as literal keystrokes).
  - `confirmOk i`: whether the post-submission confirmation marker
    (`div.chapter`, line 198) appears within the 20s wait for chapter `i`.
Element lookups other than these waits are modelled as succeeding, and the
fixed `time.sleep` pauses are untimed glue and not modelled.

A run is summarised as the list of observable steps it performed, in order,
plus a flag: `true` when the loop ran to completion, `false` when an
uncaught exception aborted it (in `main` that exception prints an error and
exits with status 1).
-/

/-- Outcome of writing a string into a form field. -/
inductive FillResult where
  | typed (value : String)
  | jsSet (value : String)
  | raised
deriving Repr, DecidableEq

/-- The value that ended up in the field, if the write did not raise. -/
def FillResult.value : FillResult → Option String
  | .typed v => some v
  | .jsSet v => some v
  | .raised => none

/-- Plain `element.clear(); element.send_keys(text)`: the text is typed as
literal keystrokes when the driver can type it, otherwise the call raises. -/
def send_keys (canType : String → Bool) (text : String) : FillResult :=
  if canType text then .typed text else .raised

/-- The helper `safe_send_keys` (upload.py lines 107-114): try
`clear`/`send_keys`, and on any exception fall back to
`driver.execute_script("arguments[0].value = arguments[1];", ...)`, which
assigns the full raw text directly. -/
def safe_send_keys (canType : String → Bool) (text : String) : FillResult :=
  match send_keys canType text with
  | .raised => .jsSet text
  | r => r

/-- The chapter-title write of `upload_chapter` (upload.py lines 178-180):
plain `clear`/`send_keys` on the `chapter_title` field, with no fallback. -/
def chapter_title_fill (canType : String → Bool) (title : String) : FillResult :=
  send_keys canType title

/-- The chapter-content write of `upload_chapter` (upload.py lines 184-186):
plain `clear`/`send_keys` on the `chapter_content` textarea, with no
fallback. -/
def chapter_content_fill (canType : String → Bool) (content : String) : FillResult :=
  send_keys canType content

/-- Oracles for the browser interactions that can fail. -/
structure Env where
  navOk : Nat → Bool
  canType : String → Bool
  confirmOk : Nat → Bool

/-- One observable step of a run, tagged with the 0-based chapter index it
concerns. -/
inductive Ev where
  | skipped (i : Nat)
  | navigated (i : Nat)
  | filledTitle (i : Nat) (title : String)
  | filledContent (i : Nat) (content : String)
  | wouldSubmit (i : Nat)
  | submitted (i : Nat)
  | confirmed (i : Nat)
  | confirmFailed (i : Nat)
deriving Repr, DecidableEq

/-- Steps that only a real (non-dry) submission performs: the click on the
Post button and the two outcomes of the confirmation wait. -/
def Ev.isSubmitStep : Ev → Bool
  | .submitted _ => true
  | .confirmed _ => true
  | .confirmFailed _ => true
  | _ => false

/-- The function `upload_chapter` (upload.py lines 164-201) for the chapter
at index `i`: navigate to the add-chapter form (a timeout propagates), fill
the title and the content fields with plain `send_keys` (an exception
propagates), then in dry-run mode stop after reporting; otherwise click Post
and wait for the confirmation marker, catching a `TimeoutException` there
and only reporting the failure.  Returns the steps performed and `false`
exactly when an exception propagated. -/
def upload_chapter (env : Env) (i : Nat) (title content : String) (dry : Bool) :
    List Ev × Bool :=
  if !env.navOk i then ([], false)
  else match chapter_title_fill env.canType title with
    | .raised => ([.navigated i], false)
    | _ =>
      match chapter_content_fill env.canType content with
      | .raised => ([.navigated i, .filledTitle i title], false)
      | _ =>
        let pre := [Ev.navigated i, Ev.filledTitle i title, Ev.filledContent i content]
        if dry then (pre ++ [.wouldSubmit i], true)
        else if env.confirmOk i then (pre ++ [.submitted i, .confirmed i], true)
        else (pre ++ [.submitted i, .confirmFailed i], true)

/-- The loop body of `upload_all_chapters` (upload.py lines 222-232),
carrying the running index `i` of `enumerate(chapters)`: indices below
`start` are reported as skipped and not processed; otherwise the chapter is
uploaded, and an exception from `upload_chapter` aborts the rest of the
loop. -/
def upload_all_go (env : Env) (dry : Bool) (start : Nat) :
    Nat → List Chapter → List Ev × Bool
  | _, [] => ([], true)
  | i, ch :: rest =>
      if i < start then
        let r := upload_all_go env dry start (i + 1) rest
        (Ev.skipped i :: r.1, r.2)
      else
        let c := upload_chapter env i ch.title ch.content dry
        if c.2 then
          let r := upload_all_go env dry start (i + 1) rest
          (c.1 ++ r.1, r.2)
        else (c.1, false)

/-- The function `upload_all_chapters` (upload.py lines 204-232). -/
def upload_all_chapters (env : Env) (chapters : List Chapter) (start : Nat)
    (dry : Bool) : List Ev × Bool :=
  upload_all_go env dry start 0 chapters

/-- Indices of the chapters a trace actually processed (their add-chapter
navigation happened). -/
def processedIndices (evs : List Ev) : List Nat :=
  evs.filterMap fun e =>
    match e with
    | .navigated i => some i
    | _ => none

/-- Indices a trace reported as skipped. -/
def skippedIndices (evs : List Ev) : List Nat :=
  evs.filterMap fun e =>
    match e with
    | .skipped i => some i
    | _ => none

/-- Test whether the first character list starts the second. -/
def isPrefixOfChars : List Char → List Char → Bool
  | [], _ => true
  | _ :: _, [] => false
  | a :: as, b :: bs => a == b && isPrefixOfChars as bs

/-- Test whether `pat` occurs contiguously in `h`. -/
def containsChars : List Char → List Char → Bool
  | h, pat =>
    match h with
    | [] => isPrefixOfChars pat []
    | _ :: t => isPrefixOfChars pat h || containsChars t pat

/-- Substring test used to state the content-leak claims: does `pat` occur
contiguously in `s`? -/
def containsSub (s pat : String) : Bool :=
  containsChars s.data pat.data

/-!
Helper lemmas connecting the fused heading walk to `find_all`, unfolding the
two branches of `parse_chapters`, and evaluating the upload loop.
-/

mutual

/-- First components of the heading/sibling pairs of one node are exactly
its `find_all` headings, in order. -/
theorem Node.hws_map_fst_node (n : Node) (rest : NodeList) :
    (Node.hws n rest).map Prod.fst = Node.find_hs n := by
  cases n with
  | text s => rfl
  | tag name cs =>
      by_cases h : isHeading name <;>
        simp [Node.hws, Node.find_hs, h, NodeList.hws_map_fst_list cs]

/-- First components of the heading/sibling pairs of a node sequence are
exactly its `find_all` headings, in order. -/
theorem NodeList.hws_map_fst_list (l : NodeList) :
    (NodeList.hws l).map Prod.fst = NodeList.find_hs l := by
  cases l with
  | nil => rfl
  | cons n rest =>
      simp [NodeList.hws, NodeList.find_hs, Node.hws_map_fst_node n rest,
        NodeList.hws_map_fst_list rest]

end

theorem hws_eq_nil_iff (doc : NodeList) :
    NodeList.hws doc = [] ↔ NodeList.find_hs doc = [] := by
  rw [← NodeList.hws_map_fst_list doc, List.map_eq_nil_iff]

theorem parse_chapters_no_headings (doc : NodeList) (h : NodeList.hws doc = []) :
    parse_chapters doc =
      [{ title := "Chapter 1"
         content := joinSep "" ((body_children doc).toList.map Node.render) }] := by
  simp [parse_chapters, h]

theorem parse_chapters_of_headings (doc : NodeList) (h : NodeList.hws doc ≠ []) :
    parse_chapters doc = (NodeList.hws doc).map fun p =>
      { title := get_text_strip p.1
        content := joinSep "\n" (collect_content p.2) } := by
  simp [parse_chapters, List.isEmpty_eq_true, h]

theorem upload_chapter_ok (env : Env) (i : Nat) (title content : String)
    (dry : Bool) (hnav : env.navOk i = true) (ht : env.canType title = true)
    (hc : env.canType content = true) :
    upload_chapter env i title content dry =
      ([Ev.navigated i, Ev.filledTitle i title, Ev.filledContent i content] ++
        (if dry then [Ev.wouldSubmit i]
         else if env.confirmOk i then [Ev.submitted i, Ev.confirmed i]
         else [Ev.submitted i, Ev.confirmFailed i]), true) := by
  simp only [upload_chapter, chapter_title_fill, chapter_content_fill,
    send_keys, hnav, ht, hc, if_true, Bool.not_true, Bool.false_eq_true,
    if_false]
  split <;> try rfl
  split <;> rfl

theorem upload_chapter_nav_fail (env : Env) (i : Nat) (title content : String)
    (dry : Bool) (hnav : env.navOk i = false) :
    upload_chapter env i title content dry = ([], false) := by
  simp [upload_chapter, hnav]

theorem processedIndices_append (l1 l2 : List Ev) :
    processedIndices (l1 ++ l2) = processedIndices l1 ++ processedIndices l2 := by
  simp [processedIndices]

theorem skippedIndices_append (l1 l2 : List Ev) :
    skippedIndices (l1 ++ l2) = skippedIndices l1 ++ skippedIndices l2 := by
  simp [skippedIndices]

theorem upload_chapter_ok_counts (env : Env) (i : Nat) (t c : String)
    (dry : Bool) (hnav : env.navOk i = true) (ht : env.canType t = true)
    (hc : env.canType c = true) :
    processedIndices (upload_chapter env i t c dry).1 = [i] ∧
    skippedIndices (upload_chapter env i t c dry).1 = [] ∧
    (upload_chapter env i t c dry).2 = true := by
  rw [upload_chapter_ok env i t c dry hnav ht hc]
  refine ⟨?_, ?_, rfl⟩ <;>
    (split <;> try split) <;> simp [processedIndices, skippedIndices]

theorem upload_all_go_indices (env : Env) (dry : Bool) (start : Nat)
    (hnav : ∀ i, env.navOk i = true) (ht : ∀ s, env.canType s = true) :
    ∀ (chs : List Chapter) (k : Nat),
      processedIndices (upload_all_go env dry start k chs).1
        = (List.range' k chs.length).filter (fun i => decide (start ≤ i)) ∧
      skippedIndices (upload_all_go env dry start k chs).1
        = (List.range' k chs.length).filter (fun i => decide (i < start)) ∧
      (upload_all_go env dry start k chs).2 = true := by
  intro chs
  induction chs with
  | nil =>
      intro k
      simp [upload_all_go, processedIndices, skippedIndices]
  | cons ch rest ih =>
      intro k
      obtain ⟨ih1, ih2, ih3⟩ := ih (k + 1)
      by_cases hk : k < start
      · have hns : ¬ start ≤ k := by omega
        simp [upload_all_go, hk, List.range'_succ, processedIndices,
          skippedIndices, hns] at ih1 ih2 ⊢
        exact ⟨ih1, ih2, ih3⟩
      · have hs : start ≤ k := by omega
        obtain ⟨hp, hsk, hflag⟩ :=
          upload_chapter_ok_counts env k ch.title ch.content dry (hnav k)
            (ht ch.title) (ht ch.content)
        simp [upload_all_go, hk, hflag, processedIndices_append,
          skippedIndices_append, hp, hsk, ih1, ih2, ih3, List.range'_succ, hs]

theorem upload_chapter_dry_no_submit (env : Env) (i : Nat) (t c : String) :
    ∀ e ∈ (upload_chapter env i t c true).1, Ev.isSubmitStep e = false := by
  simp only [upload_chapter]
  split
  · simp
  · split
    · simp [Ev.isSubmitStep]
    · split
      · simp [Ev.isSubmitStep]
      · simp [Ev.isSubmitStep]

theorem upload_all_go_dry_no_submit (env : Env) (start : Nat) :
    ∀ (chs : List Chapter) (k : Nat),
      ∀ e ∈ (upload_all_go env true start k chs).1, Ev.isSubmitStep e = false := by
  intro chs
  induction chs with
  | nil =>
      intro k e he
      simp [upload_all_go] at he
  | cons ch rest ih =>
      intro k e he
      simp only [upload_all_go] at he
      by_cases hk : k < start
      · rw [if_pos hk] at he
        rcases List.mem_cons.1 he with rfl | h
        · rfl
        · exact ih (k + 1) e h
      · rw [if_neg hk] at he
        split at he
        · rcases List.mem_append.1 he with h | h
          · exact upload_chapter_dry_no_submit env k ch.title ch.content e h
          · exact ih (k + 1) e h
        · exact upload_chapter_dry_no_submit env k ch.title ch.content e he

theorem upload_all_go_mono (env : Env) (dry : Bool) (start : Nat)
    (hnav : ∀ i, env.navOk i = true) (ht : ∀ s, env.canType s = true)
    (c0 : Chapter) (rest : List Chapter) (k : Nat) (e : Ev)
    (he : e ∈ (upload_all_go env dry start (k + 1) rest).1) :
    e ∈ (upload_all_go env dry start k (c0 :: rest)).1 := by
  by_cases hk : k < start
  · simp only [upload_all_go, if_pos hk]
    exact List.mem_cons_of_mem _ he
  · have heq := upload_chapter_ok env k c0.title c0.content dry (hnav k)
      (ht c0.title) (ht c0.content)
    simp only [upload_all_go, if_neg hk, heq]
    exact List.mem_append_right _ he

theorem upload_all_go_mem (env : Env) (dry : Bool) (start : Nat)
    (hnav : ∀ i, env.navOk i = true) (ht : ∀ s, env.canType s = true) :
    ∀ (chs : List Chapter) (k p : Nat) (ch : Chapter), chs[p]? = some ch →
      start ≤ k + p →
      Ev.navigated (k + p) ∈ (upload_all_go env dry start k chs).1 ∧
      Ev.filledTitle (k + p) ch.title ∈ (upload_all_go env dry start k chs).1 ∧
      Ev.filledContent (k + p) ch.content ∈ (upload_all_go env dry start k chs).1 ∧
      (dry = true → Ev.wouldSubmit (k + p) ∈ (upload_all_go env dry start k chs).1) ∧
      (dry = false → env.confirmOk (k + p) = false →
        Ev.confirmFailed (k + p) ∈ (upload_all_go env dry start k chs).1) := by
  intro chs
  induction chs with
  | nil =>
      intro k p ch hch
      simp at hch
  | cons c0 rest ih =>
      intro k p ch hch hsp
      cases p with
      | zero =>
          have h0 : c0 = ch := by simpa using hch
          subst h0
          have hsk : ¬ k < start := by omega
          have heq := upload_chapter_ok env k c0.title c0.content dry (hnav k)
            (ht c0.title) (ht c0.content)
          simp only [Nat.add_zero] at *
          simp only [upload_all_go, if_neg hsk, heq]
          refine ⟨?_, ?_, ?_, ?_, ?_⟩
          · simp
          · simp
          · simp
          · intro hd; subst hd; simp
          · intro hd hc; subst hd; simp [hc]
      | succ p =>
          have hch' : rest[p]? = some ch := by simpa using hch
          have hidx : k + (p + 1) = (k + 1) + p := by omega
          rw [hidx] at hsp ⊢
          obtain ⟨h1, h2, h3, h4, h5⟩ := ih (k + 1) p ch hch' hsp
          refine ⟨upload_all_go_mono env dry start hnav ht c0 rest k _ h1,
            upload_all_go_mono env dry start hnav ht c0 rest k _ h2,
            upload_all_go_mono env dry start hnav ht c0 rest k _ h3,
            fun hd => upload_all_go_mono env dry start hnav ht c0 rest k _ (h4 hd),
            fun hd hc => upload_all_go_mono env dry start hnav ht c0 rest k _ (h5 hd hc)⟩

theorem upload_all_go_abort (env : Env) (start i : Nat)
    (ht : ∀ s, env.canType s = true)
    (hnav : ∀ j, j < i → env.navOk j = true) (hni : env.navOk i = false)
    (hsi : start ≤ i) :
    ∀ (chs : List Chapter) (k p : Nat) (ch : Chapter), chs[p]? = some ch →
      k + p = i →
      (upload_all_go env false start k chs).2 = false ∧
      ∀ j, i ≤ j → Ev.navigated j ∉ (upload_all_go env false start k chs).1 := by
  intro chs
  induction chs with
  | nil =>
      intro k p ch hch
      simp at hch
  | cons c0 rest ih =>
      intro k p ch hch hkp
      cases p with
      | zero =>
          have hk : k = i := by omega
          have hsk : ¬ k < start := by omega
          have hcf := upload_chapter_nav_fail env k c0.title c0.content false
            (hk ▸ hni)
          simp only [upload_all_go, if_neg hsk, hcf]
          exact ⟨rfl, by intro j hj hmem; simp at hmem⟩
      | succ p =>
          have hch' : rest[p]? = some ch := by simpa using hch
          have hkp' : (k + 1) + p = i := by omega
          have hki : k < i := by omega
          obtain ⟨ihflag, ihmem⟩ := ih (k + 1) p ch hch' hkp'
          by_cases hk : k < start
          · simp only [upload_all_go, if_pos hk]
            refine ⟨ihflag, ?_⟩
            intro j hj hmem
            rcases List.mem_cons.1 hmem with h | h
            · exact absurd h (by simp)
            · exact ihmem j hj h
          · have heq := upload_chapter_ok env k c0.title c0.content false
              (hnav k hki) (ht c0.title) (ht c0.content)
            simp only [upload_all_go, if_neg hk, heq]
            refine ⟨ihflag, ?_⟩
            intro j hj hmem
            rcases List.mem_append.1 hmem with h | h
            · have hjk : j ≠ k := by omega
              rcases List.mem_append.1 h with h1 | h2
              · simp [hjk] at h1
              · split at h2 <;> (try split at h2) <;> simp at h2
            · exact ihmem j hj h

/-!
Concrete documents and environments used by witnesses and counterexamples.
-/

/-- Document `<p>x</p>`: a paragraph and no heading. -/
def docNoHeading : NodeList :=
  NodeList.ofList [Node.tag "p" (NodeList.ofList [Node.text "x"])]

/-- Document `<h1>A</h1><p>x</p>`: one heading followed by a paragraph. -/
def docOneHeading : NodeList :=
  NodeList.ofList
    [Node.tag "h1" (NodeList.ofList [Node.text "A"]),
     Node.tag "p" (NodeList.ofList [Node.text "x"])]

/-- The spec's flat example `<h1>A</h1><p>x</p><h2>B</h2><p>y</p>`. -/
def docFlat : NodeList :=
  NodeList.ofList
    [Node.tag "h1" (NodeList.ofList [Node.text "A"]),
     Node.tag "p" (NodeList.ofList [Node.text "x"]),
     Node.tag "h2" (NodeList.ofList [Node.text "B"]),
     Node.tag "p" (NodeList.ofList [Node.text "y"])]

/-- Document `<h1>A</h1><div><h2>B</h2><p>y</p></div>`: the second heading is
nested inside a div that is a sibling of the first heading. -/
def docNested : NodeList :=
  NodeList.ofList
    [Node.tag "h1" (NodeList.ofList [Node.text "A"]),
     Node.tag "div" (NodeList.ofList
       [Node.tag "h2" (NodeList.ofList [Node.text "B"]),
        Node.tag "p" (NodeList.ofList [Node.text "y"])])]

/-- Document `<h1>A</h1><h2>B</h2>`: two adjacent headings. -/
def docTwoHeadings : NodeList :=
  NodeList.ofList
    [Node.tag "h1" (NodeList.ofList [Node.text "A"]),
     Node.tag "h2" (NodeList.ofList [Node.text "B"])]

/-- Document `<html><body><p>x</p>t</body></html>`: a body wrapper and no
heading. -/
def docBody : NodeList :=
  NodeList.ofList
    [Node.tag "html" (NodeList.ofList
      [Node.tag "body" (NodeList.ofList
        [Node.tag "p" (NodeList.ofList [Node.text "x"]), Node.text "t"])])]

/-- Document `<h1></h1>`: a single heading with no text at all. -/
def docEmptyHeading : NodeList :=
  NodeList.ofList [Node.tag "h1" NodeList.nil]

/-- Environment in which every browser interaction succeeds. -/
def envAllOk : Env :=
  { navOk := fun _ => true, canType := fun _ => true, confirmOk := fun _ => true }

/-- Environment in which every confirmation wait times out. -/
def envConfirmFail : Env :=
  { navOk := fun _ => true, canType := fun _ => true, confirmOk := fun _ => false }

/-- Environment in which every add-chapter navigation times out. -/
def envNavFail : Env :=
  { navOk := fun _ => false, canType := fun _ => true, confirmOk := fun _ => true }

/-- Four concrete chapters. -/
def chapters4 : List Chapter :=
  [{ title := "c1", content := "b1" }, { title := "c2", content := "b2" },
   { title := "c3", content := "b3" }, { title := "c4", content := "b4" }]

/-- Two concrete chapters. -/
def chapters2 : List Chapter :=
  [{ title := "c1", content := "b1" }, { title := "c2", content := "b2" }]

/-!
The claims.
-/

/-- C1 (counterexample): a document containing zero h1/h2 headings does not
get zero chapter records: `parse_chapters docNoHeading` has one chapter
while the document has zero headings, so the claimed count fails at N = 0
(that case is the "Chapter 1" fallback, claim C3). -/
theorem c1_zero_headings_cex :
    (NodeList.find_hs docNoHeading).length = 0 ∧
    (parse_chapters docNoHeading).length ≠ (NodeList.find_hs docNoHeading).length := by
  decide

/-- C1 (amended): for every document with at least one h1/h2 heading, the
segmenter returns exactly one chapter record per heading, in document order,
the i-th record's title being the stripped visible text of the i-th
heading. -/
theorem c1_titles_match_headings (doc : NodeList)
    (h : NodeList.find_hs doc ≠ []) :
    (parse_chapters doc).length = (NodeList.find_hs doc).length ∧
    (parse_chapters doc).map Chapter.title
      = (NodeList.find_hs doc).map get_text_strip := by
  have hh : NodeList.hws doc ≠ [] := fun e => h ((hws_eq_nil_iff doc).1 e)
  rw [parse_chapters_of_headings doc hh, ← NodeList.hws_map_fst_list doc]
  constructor
  · simp
  · rw [List.map_map, List.map_map]
    exact rfl

/-- Witness for `c1_titles_match_headings` at the document `docOneHeading`. -/
theorem c1_titles_match_headings_witness :
    NodeList.find_hs docOneHeading ≠ [] ∧
    ((parse_chapters docOneHeading).length = (NodeList.find_hs docOneHeading).length ∧
     (parse_chapters docOneHeading).map Chapter.title
       = (NodeList.find_hs docOneHeading).map get_text_strip) :=
  ⟨by decide, c1_titles_match_headings docOneHeading (by decide)⟩

/-- C2 (counterexample): in `docNested`, which is
`<h1>A</h1><div><h2>B</h2><p>y</p></div>`, the chapter for heading A
serializes the whole div sibling, so its content contains the subsequent
heading's text "B" and that heading's body text "y"; the universal no-leak
invariant fails. -/
theorem c2_nested_heading_leak_cex :
    ∃ chA chB, parse_chapters docNested = [chA, chB] ∧
      chA.title = "A" ∧ chB.title = "B" ∧
      containsSub chA.content "B" = true ∧
      containsSub chA.content "y" = true :=
  ⟨{ title := "A", content := "<div><h2>B</h2><p>y</p></div>" },
   { title := "B", content := "<p>y</p>" },
   by decide, rfl, rfl, by decide, by decide⟩

/-- C2 (amended): for the flat document
`<h1>A</h1><p>x</p><h2>B</h2><p>y</p>` segmentation yields chapter A with
content `<p>x</p>` and chapter B with content `<p>y</p>`: each chapter's
content contains its own paragraph text and not the other's. -/
theorem c2_flat_document_no_leak :
    parse_chapters docFlat =
      [{ title := "A", content := "<p>x</p>" },
       { title := "B", content := "<p>y</p>" }] ∧
    containsSub "<p>x</p>" "x" = true ∧
    containsSub "<p>y</p>" "y" = true ∧
    containsSub "<p>x</p>" "y" = false ∧
    containsSub "<p>y</p>" "x" = false := by
  decide

/-- C3: for every document with no h1/h2 heading, the segmenter returns
exactly one chapter record titled "Chapter 1" whose content is the
concatenated serialization of all children of the document's body (of the
whole document when no body element exists). -/
theorem c3_no_heading_single_chapter (doc : NodeList)
    (h : NodeList.find_hs doc = []) :
    parse_chapters doc =
      [{ title := "Chapter 1"
         content := joinSep "" ((body_children doc).toList.map Node.render) }] :=
  parse_chapters_no_headings doc ((hws_eq_nil_iff doc).2 h)

/-- Witness for `c3_no_heading_single_chapter` at the document `docBody`. -/
theorem c3_no_heading_single_chapter_witness :
    NodeList.find_hs docBody = [] ∧
    parse_chapters docBody =
      [{ title := "Chapter 1"
         content := joinSep "" ((body_children docBody).toList.map Node.render) }] :=
  ⟨by decide, c3_no_heading_single_chapter docBody (by decide)⟩

/-- C4: whenever the i-th found heading is immediately followed by another
h1/h2 element among its siblings (no intervening sibling node), the i-th
chapter record exists, carries that heading's stripped text as title, and
has empty content; segmentation does not fail. -/
theorem c4_adjacent_headings_empty_content (doc : NodeList) (i : Nat)
    (h : Node) (nm : String) (cs rest : NodeList)
    (hh : (NodeList.hws doc)[i]? = some (h, NodeList.cons (Node.tag nm cs) rest))
    (hnm : isHeading nm = true) :
    ∃ ch, (parse_chapters doc)[i]? = some ch ∧
      ch.title = get_text_strip h ∧ ch.content = "" := by
  have hne : NodeList.hws doc ≠ [] := by
    intro e
    rw [e] at hh
    simp at hh
  rw [parse_chapters_of_headings doc hne]
  refine ⟨{ title := get_text_strip h
            content := joinSep "\n"
              (collect_content (NodeList.cons (Node.tag nm cs) rest)) },
    ?_, rfl, ?_⟩
  · rw [List.getElem?_map, hh]
    rfl
  · simp [collect_content, hnm, joinSep]

/-- Witness for `c4_adjacent_headings_empty_content` at `docTwoHeadings`
and position 0. -/
theorem c4_adjacent_headings_empty_content_witness :
    ∃ ch, (parse_chapters docTwoHeadings)[0]? = some ch ∧
      ch.title = get_text_strip (Node.tag "h1" (NodeList.ofList [Node.text "A"])) ∧
      ch.content = "" :=
  c4_adjacent_headings_empty_content docTwoHeadings 0
    (Node.tag "h1" (NodeList.ofList [Node.text "A"])) "h2"
    (NodeList.ofList [Node.text "B"]) NodeList.nil (by decide) (by decide)

/-- C5: with every browser interaction succeeding, `upload_all_chapters`
processes exactly the chapter indices at or above the start index, in
increasing order, and reports exactly the indices below it as skipped. -/
theorem c5_start_index_resume (env : Env) (chapters : List Chapter)
    (start : Nat) (dry : Bool)
    (hnav : ∀ i, env.navOk i = true) (ht : ∀ s, env.canType s = true) :
    processedIndices (upload_all_chapters env chapters start dry).1
      = (List.range chapters.length).filter (fun i => decide (start ≤ i)) ∧
    skippedIndices (upload_all_chapters env chapters start dry).1
      = (List.range chapters.length).filter (fun i => decide (i < start)) := by
  obtain ⟨h1, h2, _⟩ := upload_all_go_indices env dry start hnav ht chapters 0
  rw [List.range_eq_range']
  exact ⟨h1, h2⟩

/-- Witness for `c5_start_index_resume`: four chapters and start index 2
give processed indices [2, 3], in order, and skipped indices [0, 1]. -/
theorem c5_start_index_resume_witness :
    (processedIndices (upload_all_chapters envAllOk chapters4 2 false).1
        = (List.range chapters4.length).filter (fun i => decide (2 ≤ i)) ∧
     skippedIndices (upload_all_chapters envAllOk chapters4 2 false).1
        = (List.range chapters4.length).filter (fun i => decide (i < 2))) ∧
    (List.range chapters4.length).filter (fun i => decide (2 ≤ i)) = [2, 3] ∧
    (List.range chapters4.length).filter (fun i => decide (i < 2)) = [0, 1] :=
  ⟨c5_start_index_resume envAllOk chapters4 2 false (fun _ => rfl) (fun _ => rfl),
   by decide, by decide⟩

/-- C6: in dry-run mode, with the browser interactions succeeding, every
non-skipped chapter has both its title and its content field filled, and no
chapter is submitted or waited on for confirmation. -/
theorem c6_dry_run_fills_never_submits (env : Env) (chapters : List Chapter)
    (start : Nat) (hnav : ∀ i, env.navOk i = true)
    (ht : ∀ s, env.canType s = true) :
    (∀ e ∈ (upload_all_chapters env chapters start true).1,
      Ev.isSubmitStep e = false) ∧
    (∀ i ch, chapters[i]? = some ch → start ≤ i →
      Ev.filledTitle i ch.title ∈ (upload_all_chapters env chapters start true).1 ∧
      Ev.filledContent i ch.content ∈ (upload_all_chapters env chapters start true).1) := by
  refine ⟨upload_all_go_dry_no_submit env start chapters 0, ?_⟩
  intro i ch hch hi
  have hm := upload_all_go_mem env true start hnav ht chapters 0 i ch hch
    (by simpa using hi)
  simp only [Nat.zero_add] at hm
  exact ⟨hm.2.1, hm.2.2.1⟩

/-- Witness for `c6_dry_run_fills_never_submits` at four chapters and start
index 1. -/
theorem c6_dry_run_fills_never_submits_witness :
    (∀ e ∈ (upload_all_chapters envAllOk chapters4 1 true).1,
      Ev.isSubmitStep e = false) ∧
    (∀ i ch, chapters4[i]? = some ch → 1 ≤ i →
      Ev.filledTitle i ch.title ∈ (upload_all_chapters envAllOk chapters4 1 true).1 ∧
      Ev.filledContent i ch.content ∈ (upload_all_chapters envAllOk chapters4 1 true).1) :=
  c6_dry_run_fills_never_submits envAllOk chapters4 1 (fun _ => rfl) (fun _ => rfl)

/-- C7: a confirmation timeout on chapter i is reported but chapter i + 1 is
still attempted (first part), whereas an add-chapter navigation timeout on
chapter i aborts the run and no chapter at or past i is attempted (second
part). -/
theorem c7_confirm_soft_nav_fatal (chapters : List Chapter) (start i : Nat) :
    (∀ env : Env, (∀ j, env.navOk j = true) → (∀ s, env.canType s = true) →
      env.confirmOk i = false → start ≤ i →
      ∀ ch ch', chapters[i]? = some ch → chapters[i + 1]? = some ch' →
      Ev.confirmFailed i ∈ (upload_all_chapters env chapters start false).1 ∧
      Ev.navigated (i + 1) ∈ (upload_all_chapters env chapters start false).1) ∧
    (∀ env : Env, (∀ s, env.canType s = true) →
      (∀ j, j < i → env.navOk j = true) → env.navOk i = false → start ≤ i →
      ∀ ch, chapters[i]? = some ch →
      (upload_all_chapters env chapters start false).2 = false ∧
      ∀ j, i ≤ j →
        Ev.navigated j ∉ (upload_all_chapters env chapters start false).1) := by
  constructor
  · intro env hnav ht hconf hsi ch ch' hch hch'
    have hm := upload_all_go_mem env false start hnav ht chapters 0 i ch hch
      (by simpa using hsi)
    have hm' := upload_all_go_mem env false start hnav ht chapters 0 (i + 1) ch' hch'
      (by simp; omega)
    simp only [Nat.zero_add] at hm hm'
    exact ⟨hm.2.2.2.2 (by simp) hconf, hm'.1⟩
  · intro env ht hnav hni hsi ch hch
    exact upload_all_go_abort env start i ht hnav hni hsi chapters 0 i ch hch
      (by simp)

/-- Witness for `c7_confirm_soft_nav_fatal` at two chapters, start 0 and
chapter index 0, with a confirmation-timeout environment for the first part
and a navigation-timeout environment for the second. -/
theorem c7_confirm_soft_nav_fatal_witness :
    (Ev.confirmFailed 0 ∈ (upload_all_chapters envConfirmFail chapters2 0 false).1 ∧
     Ev.navigated 1 ∈ (upload_all_chapters envConfirmFail chapters2 0 false).1) ∧
    ((upload_all_chapters envNavFail chapters2 0 false).2 = false ∧
     ∀ j, 0 ≤ j →
       Ev.navigated j ∉ (upload_all_chapters envNavFail chapters2 0 false).1) :=
  ⟨(c7_confirm_soft_nav_fatal chapters2 0 0).1 envConfirmFail (fun _ => rfl)
      (fun _ => rfl) rfl (Nat.le_refl 0)
      { title := "c1", content := "b1" } { title := "c2", content := "b2" }
      (by decide) (by decide),
   (c7_confirm_soft_nav_fatal chapters2 0 0).2 envNavFail (fun _ => rfl)
      (fun j hj => absurd hj (Nat.not_lt_zero j)) rfl (Nat.le_refl 0)
      { title := "c1", content := "b1" } (by decide)⟩

/-- C8 (counterexample): the chapter-content write of `upload_chapter` is a
plain `send_keys` with no JavaScript fallback: for content the driver cannot
type as literal keystrokes, the write raises and nothing lands in the
content field, so the full raw content does not land exactly. -/
theorem c8_content_fill_no_fallback_cex :
    (chapter_content_fill (fun _ => false) "a").value ≠ some "a" := by
  decide

/-- C8 (amended): `upload_chapter` clears and writes both the title and the
content field with plain keystroke entry: typable text lands exactly, and
untypable text makes the write raise rather than fall back; the JavaScript
fallback lives only in `safe_send_keys` (used for the login fields), where
the full raw text always lands exactly. -/
theorem c8_fill_mechanisms (canType : String → Bool) (text : String) :
    (safe_send_keys canType text).value = some text ∧
    (canType text = true →
      chapter_title_fill canType text = FillResult.typed text ∧
      chapter_content_fill canType text = FillResult.typed text) ∧
    (canType text = false →
      chapter_title_fill canType text = FillResult.raised ∧
      chapter_content_fill canType text = FillResult.raised) := by
  by_cases h : canType text <;>
    simp [safe_send_keys, chapter_title_fill, chapter_content_fill, send_keys,
      FillResult.value, h]

/-- Witness for `c8_fill_mechanisms` at a driver that can type nothing and
the text "a". -/
theorem c8_fill_mechanisms_witness :
    (safe_send_keys (fun _ => false) "a").value = some "a" ∧
    chapter_content_fill (fun _ => false) "a" = FillResult.raised :=
  ⟨(c8_fill_mechanisms (fun _ => false) "a").1,
   ((c8_fill_mechanisms (fun _ => false) "a").2.2 rfl).2⟩

/-- C9 (counterexample): the document `<h1></h1>` yields a chapter record
whose title is the empty string, so segmenter titles are not always
non-empty. -/
theorem c9_empty_heading_empty_title_cex :
    ∃ ch, ch ∈ parse_chapters docEmptyHeading ∧ ch.title = "" :=
  ⟨{ title := "", content := "" }, by decide, rfl⟩

/-- C9 (amended): every chapter title is either the literal "Chapter 1" or
the stripped text of one of the document's headings; in particular every
title is non-empty whenever every heading of the document has non-empty
stripped text. -/
theorem c9_titles_nonempty (doc : NodeList)
    (hne : ∀ hd ∈ NodeList.find_hs doc, get_text_strip hd ≠ "") :
    ∀ ch ∈ parse_chapters doc, ch.title ≠ "" := by
  intro ch hch
  by_cases h : NodeList.hws doc = []
  · rw [parse_chapters_no_headings doc h] at hch
    rw [List.mem_singleton] at hch
    rw [hch]
    show "Chapter 1" ≠ ""
    decide
  · rw [parse_chapters_of_headings doc h] at hch
    obtain ⟨p, hp, hpe⟩ := List.mem_map.1 hch
    rw [← hpe]
    exact hne p.1 (by
      rw [← NodeList.hws_map_fst_list doc]
      exact List.mem_map_of_mem Prod.fst hp)

/-- Witness for `c9_titles_nonempty` at the document `docOneHeading`. -/
theorem c9_titles_nonempty_witness :
    (∀ hd ∈ NodeList.find_hs docOneHeading, get_text_strip hd ≠ "") ∧
    ∀ ch ∈ parse_chapters docOneHeading, ch.title ≠ "" :=
  ⟨by decide, c9_titles_nonempty docOneHeading (by decide)⟩

/-- C10: the segmenter always returns at least one chapter record, for every
document, with or without headings, body or no body. -/
theorem c10_parse_chapters_ne_nil (doc : NodeList) : parse_chapters doc ≠ [] := by
  by_cases h : NodeList.hws doc = []
  · rw [parse_chapters_no_headings doc h]
    simp
  · rw [parse_chapters_of_headings doc h]
    simp only [ne_eq, List.map_eq_nil_iff]
    exact h
